import Mathlib

set_option maxRecDepth 8192

/-!
Verification of the napp project scaffolder (repository damiensedgwick/napp).
The Go code is embedded shallowly: Go strings are Lean `String`s, the
filesystem is an explicit state (`FS`) of directory paths and file contents,
`os` calls are state transitions parameterised by an `Oracle` injecting the
I/O failures the code handles, and each function of `napp.go` (and, where a
claim references it, of the earlier embedded-template variant of the tool)
is one Lean definition of the same name.
-/

/-! ## The project-name pattern (`isInvalidProjectName`) -/

/-- Membership in the character class `[a-z0-9-]` of the pattern
`^[a-z0-9-]+$` used by `isInvalidProjectName`. -/
def isNameChar (c : Char) : Bool :=
  ('a' ≤ c && c ≤ 'z') || ('0' ≤ c && c ≤ '9') || c == '-'

/-- Go `regexp.MatchString "^[a-z0-9-]+$" name`: the string is nonempty and
every character lies in the class. The pattern is a fixed valid regular
expression, so `MatchString` never returns an error and the `err != nil`
branch of `isInvalidProjectName` is dead. -/
def matchesNamePattern (s : String) : Bool :=
  !s.data.isEmpty && s.data.all isNameChar

/-- `isInvalidProjectName` of `napp.go` (also present, identically, in the
earlier variant of the tool). -/
def isInvalidProjectName (s : String) : Bool :=
  !matchesNamePattern s

/-- The character class `[a-z0-9-]`, enumerated. -/
def nameChars : List Char := "abcdefghijklmnopqrstuvwxyz0123456789-".data

theorem char_eq_of_toNat {c₁ c₂ : Char} (h : c₁.toNat = c₂.toNat) : c₁ = c₂ :=
  Char.eq_of_val_eq (UInt32.toNat.inj h)

theorem mem_nameChars_of_isNameChar {c : Char} (h : isNameChar c = true) :
    c ∈ nameChars := by
  simp only [isNameChar, Bool.or_eq_true, Bool.and_eq_true, decide_eq_true_eq,
    beq_iff_eq] at h
  have hmem : c.toNat ∈ (nameChars.map Char.toNat) := by
    rcases h with (⟨h1, h2⟩ | ⟨h1, h2⟩) | h1
    · have l1 : (97 : Nat) ≤ c.toNat := h1
      have l2 : c.toNat ≤ 122 := h2
      interval_cases h3 : c.toNat <;> decide
    · have l1 : (48 : Nat) ≤ c.toNat := h1
      have l2 : c.toNat ≤ 57 := h2
      interval_cases h3 : c.toNat <;> decide
    · subst h1; decide
  rcases List.mem_map.mp hmem with ⟨x, hx, hxe⟩
  exact (char_eq_of_toNat hxe) ▸ hx

/-! ## Character-wise models of the Go string library calls -/

/-- Go `strings.ToUpper`, character-wise (every string it is applied to in
this code is ASCII, where Go and Lean agree). -/
def goToUpper (s : String) : String := ⟨s.data.map Char.toUpper⟩

/-- Go `strings.ToLower`, character-wise. -/
def goToLower (s : String) : String := ⟨s.data.map Char.toLower⟩

/-- Go `strings.ReplaceAll s "-" "_"` (a single-character pattern, so it is a
character map). -/
def replaceAllDashUnderscore (s : String) : String :=
  ⟨s.data.map fun c => if c = '-' then '_' else c⟩

/-- Go `strings.ReplaceAll s "-" " "` as used on the project name in
`createHtmlFile` of the embedded-template variant. -/
def replaceAllDashSpace (s : String) : String :=
  ⟨s.data.map fun c => if c = '-' then ' ' else c⟩

/-- The derived form `strings.ReplaceAll(strings.ToUpper(name), "-", "_")`
computed inline by `createDotEnvFile` (and by `createGoMainFile` of the
embedded-template variant); the spec calls it `upperSnakeCase`. -/
def upperSnakeCase (s : String) : String :=
  replaceAllDashUnderscore (goToUpper s)

theorem toLower_fixes_nameChar {c : Char} (h : isNameChar c = true) :
    c.toLower = c := by
  have := mem_nameChars_of_isNameChar h
  fin_cases this <;> decide

theorem goToLower_fixes_valid {s : String} (h : matchesNamePattern s = true) :
    goToLower s = s := by
  simp only [matchesNamePattern, Bool.and_eq_true, List.all_eq_true] at h
  have hd : s.data.map Char.toLower = s.data := by
    calc s.data.map Char.toLower
        = s.data.map id := List.map_congr_left fun a ha => toLower_fixes_nameChar (h.2 a ha)
      _ = s.data := List.map_id s.data
  exact congrArg String.mk hd

/-! ## `fmt.Sprintf` restricted to `%s` verbs -/

/-- Whether two adjacent characters somewhere in the list form a `%s` verb. -/
def hasPS : List Char → Bool
  | [] => false
  | [_] => false
  | c :: d :: rest => (c = '%' && d = 's') || hasPS (d :: rest)

/-- `fmt.Sprintf` for a format string whose only verbs are `%s`: the verbs are
replaced by the arguments left-to-right. (Go renders `%!s(MISSING)` when the
arguments run out; no call in this code lets that happen.) -/
def fillP : List Char → List String → List Char
  | [], _ => []
  | [c], _ => [c]
  | c :: d :: rest, args =>
    if c = '%' && d = 's' then
      match args with
      | a :: args' => a.data ++ fillP rest args'
      | [] => "%!s(MISSING)".data ++ fillP rest []
    else c :: fillP (d :: rest) args

def fillPercentS (tmpl : String) (args : List String) : String :=
  ⟨fillP tmpl.data args⟩

theorem fillP_verb (q : List Char) (x : String) (args : List String) :
    fillP ('%' :: 's' :: q) (x :: args) = x.data ++ fillP q args := by
  simp [fillP]

theorem fillP_piece (q : List Char) (x : String) (args : List String) :
    ∀ p : List Char, hasPS p = false →
      fillP (p ++ '%' :: 's' :: q) (x :: args) = p ++ (x.data ++ fillP q args) := by
  intro p
  induction p with
  | nil => intro _; simpa using fillP_verb q x args
  | cons c p ih =>
    intro hp
    cases p with
    | nil =>
      have : fillP (c :: '%' :: 's' :: q) (x :: args)
          = c :: fillP ('%' :: 's' :: q) (x :: args) := by
        simp [fillP]
      simp [this, fillP_verb q x args]
    | cons d p' =>
      have hsplit : ((c = '%' && d = 's') || hasPS (d :: p')) = false := hp
      have h1 : (c = '%' && d = 's') = false := by
        cases hb : (c = '%' && d = 's') with
        | false => rfl
        | true => rw [hb] at hsplit; simp at hsplit
      have h2 : hasPS (d :: p') = false := by
        cases hb : hasPS (d :: p') with
        | false => rfl
        | true => rw [hb] at hsplit; simp at hsplit
      have hred : fillP (c :: d :: (p' ++ '%' :: 's' :: q)) (x :: args)
          = c :: fillP (d :: (p' ++ '%' :: 's' :: q)) (x :: args) := by
        simp [fillP, h1]
      calc fillP ((c :: d :: p') ++ '%' :: 's' :: q) (x :: args)
          = c :: fillP ((d :: p') ++ '%' :: 's' :: q) (x :: args) := hred
        _ = c :: ((d :: p') ++ (x.data ++ fillP q args)) := by rw [ih h2]
        _ = (c :: d :: p') ++ (x.data ++ fillP q args) := rfl

/-! ## The title caser (`cases.Title(language.English)`) -/

/-- Modelled library call: `cases.Title(language.English).String` on the
ASCII, lowercase strings this tool feeds it (the caser itself is an external
dependency, not code of this repository): the first character of every
space-separated word is uppercased — the spec's "each word capitalized". -/
def titleScan (wordStart : Bool) : List Char → List Char
  | [] => []
  | c :: cs =>
    if c = ' ' then ' ' :: titleScan true cs
    else (if wordStart then c.toUpper else c) :: titleScan false cs

def goTitleString (s : String) : String := ⟨titleScan true s.data⟩

/-- The `title` computed by `createHtmlFile` of the embedded-template
variant: hyphens become spaces, then the title caser runs. -/
def titleCase (projectName : String) : String :=
  goTitleString (replaceAllDashSpace projectName)

/-- Capitalisation of one segment, for the spec reading of `titleCase`. -/
def capFirst : List Char → List Char
  | [] => []
  | c :: cs => c.toUpper :: cs

/-- Splitting at every occurrence of a separator character. -/
def splitOnChar (sep : Char) : List Char → List (List Char)
  | [] => [[]]
  | c :: cs =>
    match splitOnChar sep cs with
    | w :: ws => if c = sep then [] :: w :: ws else (c :: w) :: ws
    | [] => [[]]

/-- Joining segments with a separator character. -/
def joinWith (sep : Char) : List (List Char) → List Char
  | [] => []
  | [w] => w
  | w :: ws => w ++ sep :: joinWith sep ws

/-- The spec's own description of `titleCase`: "capitalizes each
hyphen-delimited segment and joins with spaces". -/
def titleCaseSpec (projectName : String) : String :=
  ⟨joinWith ' ' ((splitOnChar '-' projectName.data).map capFirst)⟩

theorem splitOnChar_ne_nil (sep : Char) (l : List Char) :
    splitOnChar sep l ≠ [] := by
  cases l with
  | nil => simp [splitOnChar]
  | cons c cs =>
    simp only [splitOnChar]
    cases h : splitOnChar sep cs with
    | nil => simp
    | cons w ws =>
      by_cases hc : c = sep <;> simp [hc]

theorem joinWith_splitOnChar (sep : Char) (l : List Char) :
    joinWith sep (splitOnChar sep l) = l := by
  induction l with
  | nil => rfl
  | cons c cs ih =>
    simp only [splitOnChar]
    cases h : splitOnChar sep cs with
    | nil => exact absurd h (splitOnChar_ne_nil sep cs)
    | cons w ws =>
      rw [h] at ih
      by_cases hc : c = sep
      · subst hc
        simp only [if_pos rfl]
        cases ws with
        | nil => simp [joinWith] at ih ⊢; exact ih
        | cons w' ws' => simp [joinWith] at ih ⊢; exact ih
      · simp only [if_neg hc]
        cases ws with
        | nil => simp [joinWith] at ih ⊢; exact ih
        | cons w' ws' =>
          simp [joinWith] at ih ⊢
          rw [← ih]

theorem splitOnChar_sep_free (sep : Char) (l : List Char) :
    ∀ w ∈ splitOnChar sep l, ∀ c ∈ w, c ≠ sep := by
  induction l with
  | nil => intro w hw; simp [splitOnChar] at hw; simp [hw]
  | cons c cs ih =>
    intro w hw
    simp only [splitOnChar] at hw
    cases h : splitOnChar sep cs with
    | nil => exact absurd h (splitOnChar_ne_nil sep cs)
    | cons v vs =>
      rw [h] at hw
      rw [h] at ih
      have hw' : w ∈ (if c = sep then [] :: v :: vs else (c :: v) :: vs) := hw
      by_cases hc : c = sep
      · rw [if_pos hc] at hw'
        rcases List.mem_cons.mp hw' with h1 | h1
        · simp [h1]
        · exact ih w h1
      · rw [if_neg hc] at hw'
        rcases List.mem_cons.mp hw' with h1 | h1
        · subst h1
          intro x hx
          rcases List.mem_cons.mp hx with h2 | h2
          · subst h2; exact hc
          · exact ih v (List.mem_cons_self v vs) x h2
        · exact ih w (List.mem_cons_of_mem v h1)

theorem splitOnChar_mem_subset (sep : Char) (l : List Char) :
    ∀ w ∈ splitOnChar sep l, ∀ c ∈ w, c ∈ l := by
  induction l with
  | nil => intro w hw; simp [splitOnChar] at hw; simp [hw]
  | cons c cs ih =>
    intro w hw
    simp only [splitOnChar] at hw
    cases h : splitOnChar sep cs with
    | nil => exact absurd h (splitOnChar_ne_nil sep cs)
    | cons v vs =>
      rw [h] at hw
      rw [h] at ih
      have hw' : w ∈ (if c = sep then [] :: v :: vs else (c :: v) :: vs) := hw
      by_cases hc : c = sep
      · rw [if_pos hc] at hw'
        rcases List.mem_cons.mp hw' with h1 | h1
        · simp [h1]
        · intro x hx; exact List.mem_cons_of_mem c (ih w h1 x hx)
      · rw [if_neg hc] at hw'
        rcases List.mem_cons.mp hw' with h1 | h1
        · subst h1
          intro x hx
          rcases List.mem_cons.mp hx with h2 | h2
          · exact List.mem_cons.mpr (Or.inl h2)
          · exact List.mem_cons_of_mem c (ih v (List.mem_cons_self v vs) x h2)
        · intro x hx
          exact List.mem_cons_of_mem c (ih w (List.mem_cons_of_mem v h1) x hx)

theorem map_joinWith (f : Char → Char) (sep : Char) (ws : List (List Char)) :
    (joinWith sep ws).map f = joinWith (f sep) (ws.map (List.map f)) := by
  induction ws with
  | nil => rfl
  | cons w ws ih =>
    cases ws with
    | nil => simp [joinWith]
    | cons w' ws' =>
      show ((w ++ sep :: joinWith sep (w' :: ws')).map f) = _
      rw [List.map_append, List.map_cons, ih]
      rfl

theorem titleScan_word (w : List Char) (hw : ∀ c ∈ w, c ≠ ' ') :
    ∀ (b : Bool) (r : List Char),
      titleScan b (w ++ r) = (if b then capFirst w else w) ++ titleScan (b && w.isEmpty) r := by
  induction w with
  | nil => intro b r; simp [capFirst]
  | cons c w' ih =>
    intro b r
    have hc : c ≠ ' ' := hw c (List.mem_cons_self c w')
    have hw' : ∀ x ∈ w', x ≠ ' ' := fun x hx => hw x (List.mem_cons_of_mem c hx)
    have step : titleScan b ((c :: w') ++ r)
        = (if b then c.toUpper else c) :: titleScan false (w' ++ r) := by
      show titleScan b (c :: (w' ++ r)) = _
      simp [titleScan, hc]
    rw [step, ih hw' false r]
    cases b with
    | false => simp [capFirst]
    | true => simp [capFirst]

theorem titleScan_space (b : Bool) (r : List Char) :
    titleScan b (' ' :: r) = ' ' :: titleScan true r := by
  simp [titleScan]

theorem titleScan_joinWith (ws : List (List Char))
    (hws : ∀ w ∈ ws, ∀ c ∈ w, c ≠ ' ') (hne : ws ≠ []) :
    titleScan true (joinWith ' ' ws) = joinWith ' ' (ws.map capFirst) := by
  induction ws with
  | nil => exact absurd rfl hne
  | cons w ws ih =>
    cases ws with
    | nil =>
      simp only [joinWith, List.map_cons, List.map_nil]
      have := titleScan_word w (hws w (List.mem_cons_self w [])) true []
      simpa [titleScan] using this
    | cons w' ws' =>
      have hjoin : joinWith ' ' (w :: w' :: ws') = w ++ ' ' :: joinWith ' ' (w' :: ws') := rfl
      rw [hjoin, titleScan_word w (hws w (List.mem_cons_self w _)) true _, titleScan_space]
      rw [ih (fun v hv => hws v (List.mem_cons_of_mem w hv)) (by simp)]
      simp [joinWith, capFirst]

theorem titleCase_eq_spec {s : String} (h : matchesNamePattern s = true) :
    titleCase s = titleCaseSpec s := by
  simp only [matchesNamePattern, Bool.and_eq_true, List.all_eq_true] at h
  have hnospace : ∀ c ∈ s.data, c ≠ ' ' := by
    intro c hc he
    have := h.2 c hc
    rw [he] at this
    exact absurd this (by decide)
  have key : titleScan true (s.data.map fun c => if c = '-' then ' ' else c)
      = joinWith ' ' ((splitOnChar '-' s.data).map capFirst) := by
    set ws := splitOnChar '-' s.data with hws
    have hround : joinWith '-' ws = s.data := joinWith_splitOnChar '-' s.data
    have hdashfree : ∀ w ∈ ws, ∀ c ∈ w, c ≠ '-' := splitOnChar_sep_free '-' s.data
    have hsub : ∀ w ∈ ws, ∀ c ∈ w, c ∈ s.data := splitOnChar_mem_subset '-' s.data
    have hmapid : ws.map (List.map fun c => if c = '-' then ' ' else c) = ws := by
      calc ws.map (List.map fun c => if c = '-' then ' ' else c)
          = ws.map id := List.map_congr_left fun w hw => by
            calc w.map (fun c => if c = '-' then ' ' else c)
                = w.map id := List.map_congr_left fun c hc => if_neg (hdashfree w hw c hc)
              _ = w := List.map_id w
        _ = ws := List.map_id ws
    calc titleScan true (s.data.map fun c => if c = '-' then ' ' else c)
        = titleScan true ((joinWith '-' ws).map fun c => if c = '-' then ' ' else c) := by
          rw [hround]
      _ = titleScan true (joinWith ' ' ws) := by
          rw [map_joinWith, if_pos rfl, hmapid]
      _ = joinWith ' ' (ws.map capFirst) := by
          apply titleScan_joinWith
          · intro w hw c hc
            exact hnospace c (hsub w hw c hc)
          · rw [hws]; exact splitOnChar_ne_nil '-' s.data
  exact congrArg String.mk key

/-! ## Substring testing (for checking what generated file bodies mention) -/

/-- Whether `n` occurs as a contiguous substring of the second list. -/
def isSubstrL (n : List Char) : List Char → Bool
  | [] => n.isEmpty
  | c :: t => n.isPrefixOf (c :: t) || isSubstrL n t

/-- `strings.Contains hay needle`. -/
def containsSubstr (hay needle : String) : Bool :=
  isSubstrL needle.data hay.data

/-! ## upperSnakeCase facts (per character, over the name class) -/

theorem upperSnake_char (c : Char) (h : c ∈ nameChars) :
    (if c.toUpper = '-' then '_' else c.toUpper)
      = (if c = '-' then '_' else c.toUpper) := by
  fin_cases h <;> decide

theorem upperSnake_char_idem (c : Char) (h : c ∈ nameChars) :
    (if (if c = '-' then '_' else c.toUpper).toUpper = '-' then '_'
      else (if c = '-' then '_' else c.toUpper).toUpper)
      = (if c = '-' then '_' else c.toUpper) := by
  fin_cases h <;> decide

theorem upperSnakeCase_data (s : String) :
    (upperSnakeCase s).data
      = (s.data.map Char.toUpper).map (fun c => if c = '-' then '_' else c) := rfl

theorem upperSnakeCase_spec_form {s : String} (h : matchesNamePattern s = true) :
    (upperSnakeCase s).data = s.data.map (fun c => if c = '-' then '_' else c.toUpper) := by
  simp only [matchesNamePattern, Bool.and_eq_true, List.all_eq_true] at h
  rw [upperSnakeCase_data, List.map_map]
  apply List.map_congr_left
  intro c hc
  exact upperSnake_char c (mem_nameChars_of_isNameChar (h.2 c hc))

theorem string_data_eq {a b : String} (h : a.data = b.data) : a = b := by
  cases a; cases b; exact congrArg String.mk h

theorem valid_mem_nameChars {s : String} (h : matchesNamePattern s = true) :
    ∀ c ∈ s.data, c ∈ nameChars := by
  simp only [matchesNamePattern, Bool.and_eq_true, List.all_eq_true] at h
  exact fun c hc => mem_nameChars_of_isNameChar (h.2 c hc)

theorem upperSnakeCase_idem {s : String} (h : matchesNamePattern s = true) :
    upperSnakeCase (upperSnakeCase s) = upperSnakeCase s := by
  apply string_data_eq
  rw [upperSnakeCase_data (upperSnakeCase s), List.map_map,
    upperSnakeCase_spec_form h, List.map_map]
  apply List.map_congr_left
  intro c hc
  simpa [Function.comp] using upperSnake_char_idem c (valid_mem_nameChars h c hc)

/-! ## The embedded file bodies (string literals of `napp.go`, and the v1.4.0 template) -/

/-- Text of the `cmd/main.go` the tool writes (the raw string literal in `createGoMainFile`). It is a fixed constant: no name-derived substitution happens, and it reads the hard-coded variable `AUTH_DIARIES_DB_PATH`. -/
def mainGoContent : String :=
  "package main\n\nimport (\n\t\"fmt\"\n\t\"html/template\"\n\t\"io\"\n\t\"os\"\n\n\t\"github.com/jmoiron/sqlx\"\n\t\"github.com/joho/godotenv\"\n\t\"github.com/labstack/echo/v4\"\n\t\"github.com/labstack/echo/v4/middleware\"\n\t_ \"github.com/mattn/go-sqlite3\"\n)\n\t\ntype Template struct \x7b\n\ttmpl *template.Template\n\x7d\n\t\nfunc newTemplate() *Template \x7b\n\treturn &Template\x7b\n\t\ttmpl: template.Must(template.ParseGlob(\"templates/*.html\")),\n\t\x7d\n\x7d\n\nfunc (t *Template) Render(w io.Writer, name string, data interface\x7b\x7d, c echo.Context) error \x7b\n\treturn t.tmpl.ExecuteTemplate(w, name, data)\n\x7d\n\nvar db *sqlx.DB\n\nfunc main() \x7b\n\terr := godotenv.Load(\".env\")\n\tif err != nil \x7b\n\t\tfmt.Println(\"error loading godotenv\")\n\t\x7d\n\n\tdb = sqlx.MustConnect(\"sqlite3\", os.Getenv(\"AUTH_DIARIES_DB_PATH\"))\n\n\tvar message string\n\terr = db.Ping()\n\tif err == nil \x7b\n\t\tmessage = \"Successfully connected to DB\"\n\t\x7d\n\n\te := echo.New()\n\n\te.Static(\"/static\", \"static\")\n\te.Use(middleware.Logger())\n\te.Use(middleware.Recover())\n\te.Use(middleware.Secure())\n\n\te.Renderer = newTemplate()\n\n\te.GET(\"/\", func(c echo.Context) error \x7b\n\t\treturn c.Render(200, \"index\", newPageData(message))\n\t\x7d)\n\n\te.Logger.Fatal(e.Start(\":8080\"))\n\x7d\n\ntype PageData struct \x7b\n\tMessage string\n\x7d\n\nfunc newPageData(message string) PageData \x7b\n\treturn PageData\x7b\n\t\tMessage: message,\n\t\x7d\n\x7d\n"

/-- Text of `templates/index.html` (the raw string literal in `createHtmlFile`); a fixed constant with no `%s` placeholder. -/
def indexHTMLContent : String :=
  "\x7b\x7b block \"index\" . \x7d\x7d\n<!DOCTYPE html>\n<html lang=\"en\">\n\n<head>\n\t<meta charset=\"UTF-8\">\n\t<meta name=\"viewport\" content=\"width=device-width, initial-scale=1\">\n\t<title>Napp | Nano App | Go, HTMX & SQLite</title>\n\t<meta name=\"description\"\n\tcontent=\"A command line tool that helps you build and test web app ideas blazingly-fast with a streamlined Go, HTMX, and SQLite stack. Authored by Damien Sedgwick.\">\n\t<link href=\"static/styles.css\" rel=\"stylesheet\">\n\t<script src=\"static/htmx.min.js\"></script>\n</head>\n\n<body>\n\t<div>\n\t<h1>Hello from Napp!</h1>\n\t\x7b\x7b if .Message \x7d\x7d\n\t<p>\x7b\x7b .Message \x7d\x7d</p>\n\t\x7b\x7b end \x7d\x7d\n\t</div>\n</body>\n\n</html>\n\x7b\x7b end \x7d\x7d\n"

/-- Text of `static/htmx.min.js` (`createHtmxFile`). -/
def htmxContent : String :=
  "console.log('Hello, World!');"

/-- Text of `static/styles.css` (`createCssFile`). -/
def cssContent : String :=
  "* \x7b\n\tmargin: 0;\n\tpadding: 0;\n\tbox-sizing: border-box;\n\x7d\n\t\nhtml,\nbody \x7b\n\theight: 100%;\n\twidth: 100%;\n\x7d\n\t\nbody \x7b\n\tfont-family: courier;\n\x7d\n\t\ndiv \x7b\n\theight: 100%;\n\twidth: 100%;\n\tdisplay: flex;\n\tflex-direction: column;\n\tjustify-content: center;\n\talign-items: center;\n\x7d\n"

/-- Text of `.gitignore` (`createIgnoreFile`); note the hard-coded `auth-diaries.db` entry at its end. -/
def ignoreContent : String :=
  "# Created by https://www.toptal.com/developers/gitignore/api/go,linux,windows,macos\n# Edit at https://www.toptal.com/developers/gitignore?templates=go,linux,windows,macos\n\n.env\n\n### Go ###\n# If you prefer the allow list template instead of the deny list, see community template:\n# https://github.com/github/gitignore/blob/main/community/Golang/Go.AllowList.gitignore\n#\n# Binaries for programs and plugins\n*.exe\n*.exe~\n*.dll\n*.so\n*.dylib\n\n# Test binary, built with 'go test -c'\n*.test\n\n# Output of the go coverage tool, specifically when used with LiteIDE\n*.out\n\n# Dependency directories (remove the comment below to include it)\n# vendor/\n\n# Go workspace file\ngo.work\n\n### Linux ###\n*~\n\n# temporary files which can be created if a process still has a handle open of a deleted file\n.fuse_hidden*\n\n# KDE directory preferences\n.directory\n\n# Linux trash folder which might appear on any partition or disk\n.Trash-*\n\n# .nfs files are created when an open file is removed but is still being accessed\n.nfs*\n\n### macOS ###\n# General\n.DS_Store\n.AppleDouble\n.LSOverride\n\n# Icon must end with two \\r\nIcon\n\n\n# Thumbnails\n._*\n\n# Files that might appear in the root of a volume\n.DocumentRevisions-V100\n.fseventsd\n.Spotlight-V100\n.TemporaryItems\n.Trashes\n.VolumeIcon.icns\n.com.apple.timemachine.donotpresent\n\n# Directories potentially created on remote AFP share\n.AppleDB\n.AppleDesktop\nNetwork Trash Folder\nTemporary Items\n.apdisk\n\n### macOS Patch ###\n# iCloud generated files\n*.icloud\n\n### Windows ###\n# Windows thumbnail cache files\nThumbs.db\nThumbs.db:encryptable\nehthumbs.db\nehthumbs_vista.db\n\n# Dump file\n*.stackdump\n\n# Folder config file\n[Dd]esktop.ini\n\n# Recycle Bin used on file shares\n$RECYCLE.BIN/\n\n# Windows Installer files\n*.cab\n*.msi\n*.msix\n*.msm\n*.msp\n\n# Windows shortcuts\n*.lnk\n\n# End of https://www.toptal.com/developers/gitignore/api/go,linux,windows,macos\nbin\nauth-diaries.db\n"

/-- Text of the embedded `source/template/index.html` of the v1.4.0 variant, split at its four `%s` verbs: the template itself is `tmplV140Piece1 ++ "%s" ++ ... ++ tmplV140Piece5`. -/
def tmplV140Piece1 : String :=
  "\x7b\x7b block \"index\" . \x7d\x7d\n<!DOCTYPE html>\n\n<head>\n  <meta charset=\"UTF-8\">\n  <meta name=\"viewport\" content=\"width=device-width, initial-scale=1\">\n  <title>Napp | Nano App | Go, HTMX & SQLite</title>\n  <meta name=\"description\"\n    content=\"A command line tool that helps you build and test web app ideas blazingly-fast with a streamlined Go, HTMX, and SQLite stack. Authored by Damien Sedgwick.\">\n  <link href=\"static/styles.css\" rel=\"stylesheet\">\n  <script src=\"static/htmx.min.js\"></script>\n</head>\n\n<body id=\"body\">\n  <header>\n    <nav>\n      <a href=\"/\" title=\"Napp Home\">\n        "

def tmplV140Piece2 : String :=
  "\n      </a>\n\n      <ul>\n        \x7b\x7b if .User \x7d\x7d\n        <li>\n          <a href=\"/dashboard\" title=\"Dashboard\">Dashboard</a>\n        </li>\n        <li>\n          <button hx-post=\"/auth/sign-out\" hx-target=\"body\">Sign Out</button>\n        </li>\n        \x7b\x7b end \x7d\x7d\n\n        \x7b\x7b if not .User \x7d\x7d\n        <li>\n          <button hx-get=\"/auth/sign-in\" hx-target=\"body\">Sign In</button>\n        </li>\n        \x7b\x7b end \x7d\x7d\n      </ul>\n    </nav>\n  </header>\n\n  <main>\n    <section>\n      <h1>"

def tmplV140Piece3 : String :=
  "</h1>\n    </section>\n  </main>\n\n  <script type=\"text/javascript\">\n    document.addEventListener(\"DOMContentLoaded\", (event) => \x7b\n      document.body.addEventListener('htmx:beforeSwap', function (evt) \x7b\n        if (evt.detail.xhr.status === 422 || evt.detail.xhr.status === 500) \x7b\n          console.log(\"setting status to paint\");\n          // allow 422 responses to swap as we are using this as a signal that\n          // a form was submitted with bad data and want to rerender with the\n          // errors\n          //\n          // set isError to false to avoid error logging in console\n          evt.detail.shouldSwap = true;\n          evt.detail.isError = false;\n        \x7d\n      \x7d);\n    \x7d);\n  </script>\n</body>\n\n</html>\n\x7b\x7b end \x7d\x7d\n\n\x7b\x7b block \"sign-up-form\" . \x7d\x7d\n<div id=\"sign-up-form\">\n  <form hx-post=\"/auth/sign-up\" hx-target=\"body\">\n    <a href=\"/\" title=\"Napp Home\">\n      "

def tmplV140Piece4 : String :=
  "\n    </a>\n\n    <div>\n      <label for=\"name\">\n        Name\n      </label>\n      <input id=\"name\" type=\"text\" name=\"name\" autocomplete=\"name\" value=\"\" required>\n    </div>\n\n    <div>\n      <label for=\"email\">\n        Email\n      </label>\n      <input id=\"email\" type=\"text\" name=\"email\" autocomplete=\"email\" value=\"\" required>\n    </div>\n\n    <div>\n      <label for=\"password\">\n        Password\n      </label>\n      <input id=\"password\" type=\"password\" name=\"password\" value=\"\" required>\n    </div>\n\n    <button type=\"submit\">Register</button>\n\n    \x7b\x7b if .Errors.email\x7d\x7d\n    <p>\n      \x7b\x7b .Errors.email\x7d\x7d\n    </p>\n    \x7b\x7b end \x7d\x7d\n\n    <p>Already have an account? <button type=\"button\" hx-get=\"/auth/sign-in\" hx-target=\"body\">Sign\n        In</button></p>\n  </form>\n</div>\n\x7b\x7b end \x7d\x7d\n\n\x7b\x7b block \"sign-in-form\" . \x7d\x7d\n<div id=\"sign-in-form\">\n  <form hx-post=\"/auth/sign-in\" hx-target=\"body\">\n    <a href=\"/\" title=\"Napp Home\">\n      "

def tmplV140Piece5 : String :=
  "\n    </a>\n\n    <div>\n      <label for=\"email\">\n        Email\n      </label>\n      <input id=\"email\" type=\"text\" name=\"email\" autocomplete=\"email\" value=\"\" required>\n    </div>\n\n    <div>\n      <label for=\"password\">\n        Password\n      </label>\n      <input id=\"password\" type=\"password\" name=\"password\" value=\"\" required>\n    </div>\n\n    <button type=\"submit\">Sign In</button>\n\n    \x7b\x7b if .Errors.email\x7d\x7d\n    <p>\n      \x7b\x7b .Errors.email\x7d\x7d\n    </p>\n    \x7b\x7b end \x7d\x7d\n\n    <p>Do you need an account? <button type=\"button\" hx-get=\"/auth/sign-up\" hx-target=\"body\">Register Now</button></p>\n  </form>\n</div>\n\x7b\x7b end \x7d\x7d"

/-! ## The filesystem model and the failure oracle -/

/-- A filesystem path, as the list of its components (`filepath.Join` and the
`fmt.Sprintf("%s/%s", ...)` of `createProject` both produce such a path). -/
abbrev FPath : Type := List String

/-- The filesystem state: the directories that exist and the regular files
with their contents. -/
structure FS where
  dirs : List FPath
  files : List (FPath × String)

def emptyFS : FS := ⟨[], []⟩

def FS.hasDir (fs : FS) (p : FPath) : Bool := decide (p ∈ fs.dirs)

def FS.hasFile (fs : FS) (p : FPath) : Bool := decide (p ∈ fs.files.map Prod.fst)

/-- Whether anything (directory or file) exists at the path. -/
def FS.present (fs : FS) (p : FPath) : Bool := fs.hasDir p || fs.hasFile p

/-- No path under the project name exists yet: the "fresh name" assumption of
the spec. -/
def FS.fresh (fs : FS) (name : String) : Prop :=
  (∀ p ∈ fs.dirs, p.head? ≠ some name) ∧ (∀ e ∈ fs.files, e.1.head? ≠ some name)

/-- How an `os.Mkdir` / `os.Create` / `WriteString` call can fail. -/
inductive FsErr
  | alreadyExists
  | parentMissing
  | ioFail
deriving DecidableEq

/-- The environment's injected I/O failures: which `os.Mkdir`, `os.Create`
and `WriteString` calls fail for reasons outside the filesystem shape
(permissions, disk, ...). The code under proof handles each of these error
returns, so the theorems quantify over the oracle. -/
structure Oracle where
  failMkdir : FPath → Bool
  failCreate : FPath → Bool
  failWrite : FPath → Bool

/-- The oracle under which every I/O call succeeds. -/
def okOracle : Oracle := ⟨fun _ => false, fun _ => false, fun _ => false⟩

/-- The oracle under which every individual file operation fails while
directory creation still succeeds. -/
def fileFailOracle : Oracle := ⟨fun _ => false, fun _ => true, fun _ => true⟩

/-- `os.Mkdir`: fails if the path already exists, if its parent directory is
missing, or if the oracle injects an I/O failure; otherwise records the new
directory. -/
def mkdirFs (o : Oracle) (fs : FS) (p : FPath) : Except FsErr FS :=
  if fs.present p then .error .alreadyExists
  else if ¬ (p.dropLast = [] ∨ p.dropLast ∈ fs.dirs) then .error .parentMissing
  else if o.failMkdir p then .error .ioFail
  else .ok { fs with dirs := p :: fs.dirs }

/-- `os.Create`: fails on a directory at the path, a missing parent, or an
injected failure; otherwise truncates/creates the file empty. -/
def createFs (o : Oracle) (fs : FS) (p : FPath) : Except FsErr FS :=
  if fs.hasDir p then .error .alreadyExists
  else if ¬ (p.dropLast = [] ∨ p.dropLast ∈ fs.dirs) then .error .parentMissing
  else if o.failCreate p then .error .ioFail
  else .ok { fs with files := (p, "") :: fs.files.filter (fun e => !(e.1 == p)) }

/-- Overwriting the contents at a path (the effect of `WriteString` on the
just-created empty file). -/
def setFileFs (fs : FS) (p : FPath) (content : String) : FS :=
  { fs with files := (p, content) :: fs.files.filter (fun e => !(e.1 == p)) }

/-- The `os.Create` + `WriteString` + `fmt.Println` block shared by every
`createXxxFile` function of `napp.go`: a failed `Create` is printed and — the
file handle being nil — the `WriteString` fails and is printed too; a failed
`WriteString` alone is printed; no failure stops the caller. -/
def writeFileStep (o : Oracle) (p : FPath) (content : String)
    (createMsg writeMsg : String) (fs : FS) : FS × List String :=
  match createFs o fs p with
  | .error _ => (fs, [createMsg, writeMsg])
  | .ok fs₁ =>
    if o.failWrite p then (fs₁, [writeMsg])
    else (setFileFs fs₁ p content, [])

/-! ## The `createXxxFile` steps of `napp.go` -/

def createGoMainFile (o : Oracle) (projectName : String) (fs : FS) : FS × List String :=
  writeFileStep o [projectName, "cmd", "main.go"] mainGoContent
    "error creating main.go file: " "error writing main.go content to file: " fs

def createHtmlFile (o : Oracle) (projectName : String) (fs : FS) : FS × List String :=
  writeFileStep o [projectName, "templates", "index.html"] indexHTMLContent
    "error creating index.html file: " "error writing index.html content to file: " fs

def createHtmxFile (o : Oracle) (projectName : String) (fs : FS) : FS × List String :=
  writeFileStep o [projectName, "static", "htmx.min.js"] htmxContent
    "error creating styles.css file: " "error writing styles.css content to file: " fs

def createCssFile (o : Oracle) (projectName : String) (fs : FS) : FS × List String :=
  writeFileStep o [projectName, "static", "styles.css"] cssContent
    "error creating styles.css file: " "error writing styles.css content to file: " fs

def createIgnoreFile (o : Oracle) (projectName : String) (fs : FS) : FS × List String :=
  writeFileStep o [projectName, ".gitignore"] ignoreContent
    "error creating .gitignore file: " "error writing .gitignore content to file: " fs

/-- The `.env` body: `fmt.Sprintf("%s_DB_PATH=\"%s\"", envVarName, dbFilename)`
with `envVarName` the upper-snake form and `dbFilename` the lowercased name
plus `.db`. -/
def dotenvContent (projectName : String) : String :=
  fillPercentS "%s_DB_PATH=\"%s\"" [upperSnakeCase projectName, goToLower projectName ++ ".db"]

def createDotEnvFile (o : Oracle) (projectName : String) (fs : FS) : FS × List String :=
  writeFileStep o [projectName, ".env"] (dotenvContent projectName)
    "error creating .env file: " "error writing .env content to file: " fs

/-- `createSqliteDbFile`: only an `os.Create` (the file stays empty); its
error message says ".env" because the source copy-pasted it. -/
def createSqliteDbFile (o : Oracle) (projectName : String) (fs : FS) : FS × List String :=
  match createFs o fs [projectName, goToLower projectName ++ ".db"] with
  | .error _ => (fs, ["error creating .env file: "])
  | .ok fs₁ => (fs₁, [])

/-! ## `createProject` and `main` of `napp.go` -/

def subfolders : List String := ["cmd", "templates", "static"]

/-- The subfolder loop of `createProject`: stops at the first `os.Mkdir`
error, keeping the directories already made. -/
def mkdirSubfolders (o : Oracle) (projectName : String) :
    List String → FS → Except (String × FsErr × FS) FS
  | [], fs => .ok fs
  | d :: rest, fs =>
    match mkdirFs o fs [projectName, d] with
    | .error e => .error ("error creating subfolder " ++ d ++ ": ", e, fs)
    | .ok fs₁ => mkdirSubfolders o projectName rest fs₁

/-- The seven unconditional file-writing calls of `createProject`, in source
order, with their printed messages collected. -/
def filePhase (o : Oracle) (projectName : String) (fs : FS) : FS × List String :=
  let r1 := createGoMainFile o projectName fs
  let r2 := createHtmlFile o projectName r1.1
  let r3 := createHtmxFile o projectName r2.1
  let r4 := createCssFile o projectName r3.1
  let r5 := createIgnoreFile o projectName r4.1
  let r6 := createDotEnvFile o projectName r5.1
  let r7 := createSqliteDbFile o projectName r6.1
  (r7.1, r1.2 ++ r2.2 ++ r3.2 ++ r4.2 ++ r5.2 ++ r6.2 ++ r7.2)

/-- The outcome of `createProject` (its `(bool, error)` return), together
with the filesystem it leaves behind and what it printed to stdout. An error
carries the `fmt.Errorf` context prefix and the underlying cause. -/
structure RunResult where
  ok : Bool
  err : Option (String × FsErr)
  fs : FS
  logs : List String

/-- The part of `createProject` after the root directory is made: the three
subfolders (each failure returns `(false, err)` at once), then the seven file
steps, then `(true, nil)`. -/
def afterRoot (o : Oracle) (projectName : String) (fs₀ : FS) : RunResult :=
  match mkdirSubfolders o projectName subfolders fs₀ with
  | .error (m, e, fs') => ⟨false, some (m, e), fs', []⟩
  | .ok fs₁ =>
    ⟨true, none, (filePhase o projectName fs₁).1, (filePhase o projectName fs₁).2⟩

/-- `createProject` of `napp.go`: root mkdir (a failure returns
`(false, err)` with nothing else done), then `afterRoot`. -/
def createProject (o : Oracle) (fs : FS) (projectName : String) : RunResult :=
  match mkdirFs o fs [projectName] with
  | .error e => ⟨false, some ("error creating project directory: ", e), fs, []⟩
  | .ok fs₀ => afterRoot o projectName fs₀

/-- `validateArgs` of `napp.go`, as a value: the two length checks, then the
`--help` short-circuit (which in Go prints usage and calls `os.Exit(0)`
before the format check), then the pattern check. -/
inductive ArgCheck
  | errNoArguments
  | errTooManyArguments
  | errInvalidName
  | helpExit
  | ok (name : String)
deriving DecidableEq

def validateArgs : List String → ArgCheck
  | [] => .errNoArguments
  | [name] =>
    if name = "--help" then .helpExit
    else if isInvalidProjectName name then .errInvalidName
    else .ok name
  | _ :: _ :: _ => .errTooManyArguments

/-- The usage line printed for `--help`. -/
def helpText : String :=
  "You can create a new Nano App with the command 'napp <project-name>'"

/-- `main` of `napp.go` on the argument list `os.Args[1:]`: the exit status,
the final filesystem and everything printed to stdout. A validation error is
printed and exits 1; `--help` prints usage and exits 0; a `createProject`
error is printed and exits 1; on `ok == true` the success lines print and the
process exits 0. -/
def mainRun (o : Oracle) (fs : FS) (args : List String) : Nat × FS × List String :=
  match validateArgs args with
  | .errNoArguments => (1, fs, ["no arguments provided"])
  | .errTooManyArguments => (1, fs, ["too many arguments provided"])
  | .errInvalidName => (1, fs, ["invalid project name"])
  | .helpExit => (0, fs, [helpText])
  | .ok name =>
    let r := createProject o fs name
    match r.err with
    | some (m, _) => (1, r.fs, r.logs ++ ["Project creation failed: " ++ m])
    | none =>
      if r.ok then
        (0, r.fs, r.logs ++ ["Project created successfully!",
          "Please 'cd' into your new project and run 'go mod init <insert-your-init-path> && go mod tidy'"])
      else (0, r.fs, r.logs)

/-! ## The v1.4.0 embedded-template variant: `createHtmlFile` content -/

/-- The index template of the embedded-template variant, reassembled from its
pieces around the four `%s` verbs. -/
def indexTemplateV140 : String :=
  tmplV140Piece1 ++ "%s" ++ tmplV140Piece2 ++ "%s" ++ tmplV140Piece3 ++ "%s"
    ++ tmplV140Piece4 ++ "%s" ++ tmplV140Piece5

/-- The body `createHtmlFile` of the embedded-template variant writes:
`fmt.Sprintf(string(indexHTMLTemplate), title, title, title, title)`. -/
def createHtmlFileContentV140 (projectName : String) : String :=
  fillPercentS indexTemplateV140
    [titleCase projectName, titleCase projectName, titleCase projectName, titleCase projectName]

/-! ## Evaluation lemmas for the scaffolding run -/

theorem present_false_of_fresh {fs : FS} {name : String} (h : fs.fresh name)
    (rest : List String) : fs.present (name :: rest) = false := by
  simp only [FS.present, FS.hasDir, FS.hasFile, Bool.or_eq_false_iff,
    decide_eq_false_iff_not]
  constructor
  · intro hmem
    exact h.1 _ hmem rfl
  · intro hmem
    rcases List.mem_map.mp hmem with ⟨e, he, hfst⟩
    exact absurd (by rw [hfst]; rfl : e.1.head? = some name) (h.2 e he)

theorem mkdirFs_exists {o : Oracle} {fs : FS} {p : FPath}
    (h : fs.present p = true) : mkdirFs o fs p = .error .alreadyExists := by
  unfold mkdirFs
  simp [h]

theorem mkdirFs_ok_step {o : Oracle} {fs : FS} {p : FPath}
    (h1 : fs.present p = false)
    (h2 : p.dropLast = [] ∨ p.dropLast ∈ fs.dirs)
    (h3 : o.failMkdir p = false) :
    mkdirFs o fs p = .ok { fs with dirs := p :: fs.dirs } := by
  unfold mkdirFs
  rw [h1]
  simp only [Bool.false_eq_true, if_false]
  rw [if_neg (not_not_intro h2)]
  simp [h3]

theorem mkdirFs_ok_inv {o : Oracle} {fs fs' : FS} {p : FPath}
    (h : mkdirFs o fs p = .ok fs') :
    fs'.files = fs.files ∧ fs'.dirs = p :: fs.dirs := by
  unfold mkdirFs at h
  split at h
  · exact absurd h (by simp)
  · split at h
    · exact absurd h (by simp)
    · split at h
      · exact absurd h (by simp)
      · cases h
        exact ⟨rfl, rfl⟩

theorem mkdirSubfolders_err_inv {o : Oracle} {pn : String} {m : String}
    {e : FsErr} {fs' : FS} :
    ∀ {ds : List String} {fs : FS},
      mkdirSubfolders o pn ds fs = .error (m, e, fs') → fs'.files = fs.files := by
  intro ds
  induction ds with
  | nil => intro fs h; exact absurd h (by simp [mkdirSubfolders])
  | cons d rest ih =>
    intro fs h
    unfold mkdirSubfolders at h
    cases hm : mkdirFs o fs [pn, d] with
    | error e₁ =>
      rw [hm] at h
      cases h
      rfl
    | ok fs₁ =>
      rw [hm] at h
      have := ih h
      rw [this, (mkdirFs_ok_inv hm).1]

theorem mkdirSubfolders_cons {o : Oracle} {pn d : String} {fs fs₁ : FS}
    {rest : List String} (h : mkdirFs o fs [pn, d] = .ok fs₁) :
    mkdirSubfolders o pn (d :: rest) fs = mkdirSubfolders o pn rest fs₁ := by
  show (match mkdirFs o fs [pn, d] with
    | .error e => .error ("error creating subfolder " ++ d ++ ": ", e, fs)
    | .ok fs₁ => mkdirSubfolders o pn rest fs₁) = mkdirSubfolders o pn rest fs₁
  rw [h]

theorem createProject_root_ok {o : Oracle} {fs fs₀ : FS} {pn : String}
    (h : mkdirFs o fs [pn] = .ok fs₀) :
    createProject o fs pn = afterRoot o pn fs₀ := by
  unfold createProject
  rw [h]

theorem createProject_root_err {o : Oracle} {fs : FS} {pn : String} {e : FsErr}
    (h : mkdirFs o fs [pn] = .error e) :
    createProject o fs pn
      = ⟨false, some ("error creating project directory: ", e), fs, []⟩ := by
  unfold createProject
  rw [h]

/-- The four directories `createProject` makes, on top of a base state. -/
def dirsFS (fs : FS) (name : String) : FS :=
  { fs with dirs :=
      [name, "static"] :: [name, "templates"] :: [name, "cmd"] :: [name] :: fs.dirs }

theorem createProject_success_shape {o : Oracle} {fs : FS} {name : String}
    (hf : fs.fresh name) (hm : ∀ p, o.failMkdir p = false) :
    createProject o fs name
      = ⟨true, none, (filePhase o name (dirsFS fs name)).1,
          (filePhase o name (dirsFS fs name)).2⟩ := by
  have hpres : ∀ (adds : List FPath) (rest : List String),
      (name :: rest) ∉ adds →
      FS.present { fs with dirs := adds ++ fs.dirs } (name :: rest) = false := by
    intro adds rest hnot
    simp only [FS.present, FS.hasDir, FS.hasFile, Bool.or_eq_false_iff,
      decide_eq_false_iff_not]
    constructor
    · intro hmem
      rcases List.mem_append.mp hmem with h | h
      · exact hnot h
      · exact hf.1 _ h rfl
    · intro hmem
      rcases List.mem_map.mp hmem with ⟨e, he, hfst⟩
      exact absurd (by rw [hfst]; rfl : e.1.head? = some name) (hf.2 e he)
  have h0 : mkdirFs o fs [name] = .ok { fs with dirs := [name] :: fs.dirs } :=
    mkdirFs_ok_step (present_false_of_fresh hf []) (Or.inl rfl) (hm _)
  have h1 : mkdirFs o { fs with dirs := [name] :: fs.dirs } [name, "cmd"]
      = .ok { fs with dirs := [name, "cmd"] :: [name] :: fs.dirs } :=
    mkdirFs_ok_step (hpres [[name]] ["cmd"] (by simp)) (Or.inr (by simp)) (hm _)
  have h2 : mkdirFs o { fs with dirs := [name, "cmd"] :: [name] :: fs.dirs }
        [name, "templates"]
      = .ok { fs with dirs :=
          [name, "templates"] :: [name, "cmd"] :: [name] :: fs.dirs } :=
    mkdirFs_ok_step (hpres [[name, "cmd"], [name]] ["templates"] (by simp))
      (Or.inr (by simp)) (hm _)
  have h3 : mkdirFs o { fs with dirs :=
        [name, "templates"] :: [name, "cmd"] :: [name] :: fs.dirs } [name, "static"]
      = .ok (dirsFS fs name) :=
    mkdirFs_ok_step (hpres [[name, "templates"], [name, "cmd"], [name]] ["static"] (by simp))
      (Or.inr (by simp)) (hm _)
  have hsub : mkdirSubfolders o name subfolders { fs with dirs := [name] :: fs.dirs }
      = .ok (dirsFS fs name) := by
    show mkdirSubfolders o name ("cmd" :: "templates" :: "static" :: []) _ = _
    rw [mkdirSubfolders_cons h1, mkdirSubfolders_cons h2, mkdirSubfolders_cons h3]
    rfl
  rw [createProject_root_ok h0]
  unfold afterRoot
  rw [hsub]

/-! ## Characterising each file step by the oracle's answers -/

/-- What one `os.Create` + `WriteString` block leaves on disk, by the
oracle's answers: nothing, a truncated empty file, or the full content. -/
def wrote (o : Oracle) (p : FPath) (content : String) : List (FPath × String) :=
  if o.failCreate p then []
  else if o.failWrite p then [(p, "")]
  else [(p, content)]

/-- What one `os.Create` + `WriteString` block prints, by the oracle. -/
def stepLogs (o : Oracle) (p : FPath) (cm wm : String) : List String :=
  if o.failCreate p then [cm, wm]
  else if o.failWrite p then [wm]
  else []

/-- What `createSqliteDbFile`'s lone `os.Create` leaves on disk. -/
def wroteDb (o : Oracle) (p : FPath) : List (FPath × String) :=
  if o.failCreate p then [] else [(p, "")]

/-- What `createSqliteDbFile` prints. -/
def dbStepLogs (o : Oracle) (p : FPath) : List String :=
  if o.failCreate p then ["error creating .env file: "] else []

theorem mem_wrote {o : Oracle} {p : FPath} {c : String} {e : FPath × String}
    (h : e ∈ wrote o p c) : e.1 = p := by
  unfold wrote at h
  split at h
  · simp at h
  · split at h
    · rw [List.mem_singleton.mp h]
    · rw [List.mem_singleton.mp h]

theorem mem_wroteDb {o : Oracle} {p : FPath} {e : FPath × String}
    (h : e ∈ wroteDb o p) : e.1 = p := by
  unfold wroteDb at h
  split at h
  · simp at h
  · rw [List.mem_singleton.mp h]

theorem filter_keep {p : FPath} {l : List (FPath × String)}
    (h : ∀ e ∈ l, e.1 ≠ p) : l.filter (fun e => !(e.1 == p)) = l := by
  apply List.filter_eq_self.mpr
  intro e he
  simpa using h e he

theorem createFs_ok_step {o : Oracle} {fs : FS} {p : FPath}
    (h1 : fs.hasDir p = false)
    (h2 : p.dropLast = [] ∨ p.dropLast ∈ fs.dirs)
    (h3 : o.failCreate p = false)
    (h4 : ∀ e ∈ fs.files, e.1 ≠ p) :
    createFs o fs p = .ok { fs with files := (p, "") :: fs.files } := by
  unfold createFs
  rw [h1]
  simp only [Bool.false_eq_true, if_false]
  rw [if_neg (not_not_intro h2), h3]
  simp [filter_keep h4]

theorem createFs_fail {o : Oracle} {fs : FS} {p : FPath}
    (h1 : fs.hasDir p = false)
    (h2 : p.dropLast = [] ∨ p.dropLast ∈ fs.dirs)
    (h3 : o.failCreate p = true) :
    createFs o fs p = .error .ioFail := by
  unfold createFs
  rw [h1]
  simp only [Bool.false_eq_true, if_false]
  rw [if_neg (not_not_intro h2), h3]
  simp

theorem writeFileStep_char {o : Oracle} {p : FPath} (content cm wm : String) (fs : FS)
    (h1 : fs.hasDir p = false)
    (h2 : p.dropLast = [] ∨ p.dropLast ∈ fs.dirs)
    (h4 : ∀ e ∈ fs.files, e.1 ≠ p) :
    writeFileStep o p content cm wm fs
      = ({ fs with files := wrote o p content ++ fs.files }, stepLogs o p cm wm) := by
  unfold writeFileStep wrote stepLogs
  cases h3 : o.failCreate p with
  | true =>
    rw [createFs_fail h1 h2 h3]
    simp
  | false =>
    rw [createFs_ok_step h1 h2 h3 h4]
    cases hw : o.failWrite p with
    | true => simp [hw]
    | false =>
      simp only [hw, Bool.false_eq_true, if_false]
      unfold setFileFs
      have : ((p, "") :: fs.files).filter (fun e => !(e.1 == p)) = fs.files := by
        rw [List.filter_cons]
        simp [filter_keep h4]
      rw [this]
      rfl

theorem createSqliteDbFile_char {o : Oracle} {pn : String} (fs : FS)
    (h1 : fs.hasDir [pn, goToLower pn ++ ".db"] = false)
    (h2 : ([pn, goToLower pn ++ ".db"] : FPath).dropLast = []
      ∨ ([pn, goToLower pn ++ ".db"] : FPath).dropLast ∈ fs.dirs)
    (h4 : ∀ e ∈ fs.files, e.1 ≠ [pn, goToLower pn ++ ".db"]) :
    createSqliteDbFile o pn fs
      = ({ fs with files := wroteDb o [pn, goToLower pn ++ ".db"] ++ fs.files },
          dbStepLogs o [pn, goToLower pn ++ ".db"]) := by
  unfold createSqliteDbFile wroteDb dbStepLogs
  cases h3 : o.failCreate [pn, goToLower pn ++ ".db"] with
  | true =>
    rw [createFs_fail h1 h2 h3]
    simp
  | false =>
    rw [createFs_ok_step h1 h2 h3 h4]
    simp

/-- No string with the suffix `.db` equals a string that does not end in `b`. -/
theorem append_db_ne {s t : String} (ht : t.data.reverse.head? ≠ some 'b') :
    s ++ ".db" ≠ t := by
  intro he
  apply ht
  rw [← he]
  show ((s ++ ".db").data.reverse).head? = some 'b'
  rw [String.data_append, List.reverse_append]
  rfl

theorem hasDir_false_dirsFS {fs : FS} {name : String} (hf : fs.fresh name)
    {rest : List String}
    (h1 : rest ≠ ["static"]) (h2 : rest ≠ ["templates"]) (h3 : rest ≠ ["cmd"])
    (h4 : rest ≠ []) :
    (dirsFS fs name).hasDir (name :: rest) = false := by
  simp only [FS.hasDir, dirsFS, decide_eq_false_iff_not]
  intro hmem
  simp only [List.mem_cons, List.cons.injEq, true_and] at hmem
  rcases hmem with h | h | h | h | h
  · exact h1 h
  · exact h2 h
  · exact h3 h
  · exact h4 h
  · exact hf.1 _ h rfl

theorem base_files_ne {fs : FS} {name : String} (hf : fs.fresh name)
    (rest : List String) : ∀ e ∈ fs.files, e.1 ≠ (name :: rest) := by
  intro e he heq
  exact hf.2 e he (by rw [heq]; rfl)


/-- Full characterisation of the seven file-writing steps run on the freshly
made directory tree, for an arbitrary oracle: every step runs, each leaves
`wrote`/`wroteDb` on disk and prints `stepLogs`/`dbStepLogs`. -/
theorem filePhase_char (o : Oracle) (fs : FS) (name : String) (hf : fs.fresh name) :
    filePhase o name (dirsFS fs name)
      = ({ dirsFS fs name with files := wroteDb o [name, goToLower name ++ ".db"] ++ (wrote o [name, ".env"] (dotenvContent name) ++ (wrote o [name, ".gitignore"] ignoreContent ++ (wrote o [name, "static", "styles.css"] cssContent ++ (wrote o [name, "static", "htmx.min.js"] htmxContent ++ (wrote o [name, "templates", "index.html"] indexHTMLContent ++ (wrote o [name, "cmd", "main.go"] mainGoContent ++ fs.files)))))) },
          stepLogs o [name, "cmd", "main.go"] "error creating main.go file: " "error writing main.go content to file: "
          ++ stepLogs o [name, "templates", "index.html"] "error creating index.html file: " "error writing index.html content to file: "
          ++ stepLogs o [name, "static", "htmx.min.js"] "error creating styles.css file: " "error writing styles.css content to file: "
          ++ stepLogs o [name, "static", "styles.css"] "error creating styles.css file: " "error writing styles.css content to file: "
          ++ stepLogs o [name, ".gitignore"] "error creating .gitignore file: " "error writing .gitignore content to file: "
          ++ stepLogs o [name, ".env"] "error creating .env file: " "error writing .env content to file: "
          ++ dbStepLogs o [name, goToLower name ++ ".db"]) := by
  have hd1 : (dirsFS fs name).hasDir [name, "cmd", "main.go"] = false :=
    hasDir_false_dirsFS hf (by simp) (by simp) (by simp) (by simp)
  have hd2 : (dirsFS fs name).hasDir [name, "templates", "index.html"] = false :=
    hasDir_false_dirsFS hf (by simp) (by simp) (by simp) (by simp)
  have hd3 : (dirsFS fs name).hasDir [name, "static", "htmx.min.js"] = false :=
    hasDir_false_dirsFS hf (by simp) (by simp) (by simp) (by simp)
  have hd4 : (dirsFS fs name).hasDir [name, "static", "styles.css"] = false :=
    hasDir_false_dirsFS hf (by simp) (by simp) (by simp) (by simp)
  have hd5 : (dirsFS fs name).hasDir [name, ".gitignore"] = false :=
    hasDir_false_dirsFS hf (by simp) (by simp) (by simp) (by simp)
  have hd6 : (dirsFS fs name).hasDir [name, ".env"] = false :=
    hasDir_false_dirsFS hf (by simp) (by simp) (by simp) (by simp)
  have hd7 : (dirsFS fs name).hasDir [name, goToLower name ++ ".db"] = false :=
    hasDir_false_dirsFS hf
      (by intro h; simp only [List.cons.injEq, and_true] at h
          exact append_db_ne (by decide) h)
      (by intro h; simp only [List.cons.injEq, and_true] at h
          exact append_db_ne (by decide) h)
      (by intro h; simp only [List.cons.injEq, and_true] at h
          exact append_db_ne (by decide) h)
      (by simp)
  have hb : ∀ (rest : List String), ∀ e ∈ fs.files, e.1 ≠ (name :: rest) :=
    fun rest => base_files_ne hf rest
  have hf1 : ∀ e ∈ fs.files, e.1 ≠ [name, "cmd", "main.go"] := hb _
  have hf2 : ∀ e ∈ (wrote o [name, "cmd", "main.go"] mainGoContent ++ fs.files), e.1 ≠ [name, "templates", "index.html"] := by
    intro e he
    simp only [List.mem_append] at he
    rcases he with h | h
    · rw [mem_wrote h]; simp
    · exact hb _ e h
  have hf3 : ∀ e ∈ (wrote o [name, "templates", "index.html"] indexHTMLContent ++ (wrote o [name, "cmd", "main.go"] mainGoContent ++ fs.files)), e.1 ≠ [name, "static", "htmx.min.js"] := by
    intro e he
    simp only [List.mem_append] at he
    rcases he with h | h | h
    · rw [mem_wrote h]; simp
    · rw [mem_wrote h]; simp
    · exact hb _ e h
  have hf4 : ∀ e ∈ (wrote o [name, "static", "htmx.min.js"] htmxContent ++ (wrote o [name, "templates", "index.html"] indexHTMLContent ++ (wrote o [name, "cmd", "main.go"] mainGoContent ++ fs.files))), e.1 ≠ [name, "static", "styles.css"] := by
    intro e he
    simp only [List.mem_append] at he
    rcases he with h | h | h | h
    · rw [mem_wrote h]; simp
    · rw [mem_wrote h]; simp
    · rw [mem_wrote h]; simp
    · exact hb _ e h
  have hf5 : ∀ e ∈ (wrote o [name, "static", "styles.css"] cssContent ++ (wrote o [name, "static", "htmx.min.js"] htmxContent ++ (wrote o [name, "templates", "index.html"] indexHTMLContent ++ (wrote o [name, "cmd", "main.go"] mainGoContent ++ fs.files)))), e.1 ≠ [name, ".gitignore"] := by
    intro e he
    simp only [List.mem_append] at he
    rcases he with h | h | h | h | h
    · rw [mem_wrote h]; simp
    · rw [mem_wrote h]; simp
    · rw [mem_wrote h]; simp
    · rw [mem_wrote h]; simp
    · exact hb _ e h
  have hf6 : ∀ e ∈ (wrote o [name, ".gitignore"] ignoreContent ++ (wrote o [name, "static", "styles.css"] cssContent ++ (wrote o [name, "static", "htmx.min.js"] htmxContent ++ (wrote o [name, "templates", "index.html"] indexHTMLContent ++ (wrote o [name, "cmd", "main.go"] mainGoContent ++ fs.files))))), e.1 ≠ [name, ".env"] := by
    intro e he
    simp only [List.mem_append] at he
    rcases he with h | h | h | h | h | h
    · rw [mem_wrote h]; simp
    · rw [mem_wrote h]; simp
    · rw [mem_wrote h]; simp
    · rw [mem_wrote h]; simp
    · rw [mem_wrote h]; simp
    · exact hb _ e h
  have hf7 : ∀ e ∈ (wrote o [name, ".env"] (dotenvContent name) ++ (wrote o [name, ".gitignore"] ignoreContent ++ (wrote o [name, "static", "styles.css"] cssContent ++ (wrote o [name, "static", "htmx.min.js"] htmxContent ++ (wrote o [name, "templates", "index.html"] indexHTMLContent ++ (wrote o [name, "cmd", "main.go"] mainGoContent ++ fs.files)))))), e.1 ≠ [name, goToLower name ++ ".db"] := by
    intro e he
    simp only [List.mem_append] at he
    rcases he with h | h | h | h | h | h | h
    · rw [mem_wrote h]
      intro hx
      simp only [List.cons.injEq, true_and, and_true] at hx
      exact append_db_ne (by decide) hx.symm
    · rw [mem_wrote h]
      intro hx
      simp only [List.cons.injEq, true_and, and_true] at hx
      exact append_db_ne (by decide) hx.symm
    · rw [mem_wrote h]; simp
    · rw [mem_wrote h]; simp
    · rw [mem_wrote h]; simp
    · rw [mem_wrote h]; simp
    · exact hb _ e h
  have e1 : createGoMainFile o name (dirsFS fs name)
      = ({ dirsFS fs name with files := wrote o [name, "cmd", "main.go"] mainGoContent ++ fs.files }, stepLogs o [name, "cmd", "main.go"] "error creating main.go file: " "error writing main.go content to file: ") :=
    writeFileStep_char mainGoContent "error creating main.go file: " "error writing main.go content to file: " (dirsFS fs name) hd1 (Or.inr (by simp [dirsFS, List.dropLast])) hf1
  have e2 : createHtmlFile o name { dirsFS fs name with files := wrote o [name, "cmd", "main.go"] mainGoContent ++ fs.files }
      = ({ dirsFS fs name with files := wrote o [name, "templates", "index.html"] indexHTMLContent ++ (wrote o [name, "cmd", "main.go"] mainGoContent ++ fs.files) }, stepLogs o [name, "templates", "index.html"] "error creating index.html file: " "error writing index.html content to file: ") :=
    writeFileStep_char indexHTMLContent "error creating index.html file: " "error writing index.html content to file: " { dirsFS fs name with files := wrote o [name, "cmd", "main.go"] mainGoContent ++ fs.files } hd2 (Or.inr (by simp [dirsFS, List.dropLast])) hf2
  have e3 : createHtmxFile o name { dirsFS fs name with files := wrote o [name, "templates", "index.html"] indexHTMLContent ++ (wrote o [name, "cmd", "main.go"] mainGoContent ++ fs.files) }
      = ({ dirsFS fs name with files := wrote o [name, "static", "htmx.min.js"] htmxContent ++ (wrote o [name, "templates", "index.html"] indexHTMLContent ++ (wrote o [name, "cmd", "main.go"] mainGoContent ++ fs.files)) }, stepLogs o [name, "static", "htmx.min.js"] "error creating styles.css file: " "error writing styles.css content to file: ") :=
    writeFileStep_char htmxContent "error creating styles.css file: " "error writing styles.css content to file: " { dirsFS fs name with files := wrote o [name, "templates", "index.html"] indexHTMLContent ++ (wrote o [name, "cmd", "main.go"] mainGoContent ++ fs.files) } hd3 (Or.inr (by simp [dirsFS, List.dropLast])) hf3
  have e4 : createCssFile o name { dirsFS fs name with files := wrote o [name, "static", "htmx.min.js"] htmxContent ++ (wrote o [name, "templates", "index.html"] indexHTMLContent ++ (wrote o [name, "cmd", "main.go"] mainGoContent ++ fs.files)) }
      = ({ dirsFS fs name with files := wrote o [name, "static", "styles.css"] cssContent ++ (wrote o [name, "static", "htmx.min.js"] htmxContent ++ (wrote o [name, "templates", "index.html"] indexHTMLContent ++ (wrote o [name, "cmd", "main.go"] mainGoContent ++ fs.files))) }, stepLogs o [name, "static", "styles.css"] "error creating styles.css file: " "error writing styles.css content to file: ") :=
    writeFileStep_char cssContent "error creating styles.css file: " "error writing styles.css content to file: " { dirsFS fs name with files := wrote o [name, "static", "htmx.min.js"] htmxContent ++ (wrote o [name, "templates", "index.html"] indexHTMLContent ++ (wrote o [name, "cmd", "main.go"] mainGoContent ++ fs.files)) } hd4 (Or.inr (by simp [dirsFS, List.dropLast])) hf4
  have e5 : createIgnoreFile o name { dirsFS fs name with files := wrote o [name, "static", "styles.css"] cssContent ++ (wrote o [name, "static", "htmx.min.js"] htmxContent ++ (wrote o [name, "templates", "index.html"] indexHTMLContent ++ (wrote o [name, "cmd", "main.go"] mainGoContent ++ fs.files))) }
      = ({ dirsFS fs name with files := wrote o [name, ".gitignore"] ignoreContent ++ (wrote o [name, "static", "styles.css"] cssContent ++ (wrote o [name, "static", "htmx.min.js"] htmxContent ++ (wrote o [name, "templates", "index.html"] indexHTMLContent ++ (wrote o [name, "cmd", "main.go"] mainGoContent ++ fs.files)))) }, stepLogs o [name, ".gitignore"] "error creating .gitignore file: " "error writing .gitignore content to file: ") :=
    writeFileStep_char ignoreContent "error creating .gitignore file: " "error writing .gitignore content to file: " { dirsFS fs name with files := wrote o [name, "static", "styles.css"] cssContent ++ (wrote o [name, "static", "htmx.min.js"] htmxContent ++ (wrote o [name, "templates", "index.html"] indexHTMLContent ++ (wrote o [name, "cmd", "main.go"] mainGoContent ++ fs.files))) } hd5 (Or.inr (by simp [dirsFS, List.dropLast])) hf5
  have e6 : createDotEnvFile o name { dirsFS fs name with files := wrote o [name, ".gitignore"] ignoreContent ++ (wrote o [name, "static", "styles.css"] cssContent ++ (wrote o [name, "static", "htmx.min.js"] htmxContent ++ (wrote o [name, "templates", "index.html"] indexHTMLContent ++ (wrote o [name, "cmd", "main.go"] mainGoContent ++ fs.files)))) }
      = ({ dirsFS fs name with files := wrote o [name, ".env"] (dotenvContent name) ++ (wrote o [name, ".gitignore"] ignoreContent ++ (wrote o [name, "static", "styles.css"] cssContent ++ (wrote o [name, "static", "htmx.min.js"] htmxContent ++ (wrote o [name, "templates", "index.html"] indexHTMLContent ++ (wrote o [name, "cmd", "main.go"] mainGoContent ++ fs.files))))) }, stepLogs o [name, ".env"] "error creating .env file: " "error writing .env content to file: ") :=
    writeFileStep_char (dotenvContent name) "error creating .env file: " "error writing .env content to file: " { dirsFS fs name with files := wrote o [name, ".gitignore"] ignoreContent ++ (wrote o [name, "static", "styles.css"] cssContent ++ (wrote o [name, "static", "htmx.min.js"] htmxContent ++ (wrote o [name, "templates", "index.html"] indexHTMLContent ++ (wrote o [name, "cmd", "main.go"] mainGoContent ++ fs.files)))) } hd6 (Or.inr (by simp [dirsFS, List.dropLast])) hf6
  have e7 : createSqliteDbFile o name { dirsFS fs name with files := wrote o [name, ".env"] (dotenvContent name) ++ (wrote o [name, ".gitignore"] ignoreContent ++ (wrote o [name, "static", "styles.css"] cssContent ++ (wrote o [name, "static", "htmx.min.js"] htmxContent ++ (wrote o [name, "templates", "index.html"] indexHTMLContent ++ (wrote o [name, "cmd", "main.go"] mainGoContent ++ fs.files))))) }
      = ({ dirsFS fs name with files := wroteDb o [name, goToLower name ++ ".db"] ++ (wrote o [name, ".env"] (dotenvContent name) ++ (wrote o [name, ".gitignore"] ignoreContent ++ (wrote o [name, "static", "styles.css"] cssContent ++ (wrote o [name, "static", "htmx.min.js"] htmxContent ++ (wrote o [name, "templates", "index.html"] indexHTMLContent ++ (wrote o [name, "cmd", "main.go"] mainGoContent ++ fs.files)))))) }, dbStepLogs o [name, goToLower name ++ ".db"]) :=
    createSqliteDbFile_char { dirsFS fs name with files := wrote o [name, ".env"] (dotenvContent name) ++ (wrote o [name, ".gitignore"] ignoreContent ++ (wrote o [name, "static", "styles.css"] cssContent ++ (wrote o [name, "static", "htmx.min.js"] htmxContent ++ (wrote o [name, "templates", "index.html"] indexHTMLContent ++ (wrote o [name, "cmd", "main.go"] mainGoContent ++ fs.files))))) } hd7 (Or.inr (by simp [dirsFS, List.dropLast])) hf7
  unfold filePhase
  simp only [e1, e2, e3, e4, e5, e6, e7]

theorem afterRoot_sub_err {o : Oracle} {pn : String} {fs₀ fs' : FS} {m : String}
    {e : FsErr} (h : mkdirSubfolders o pn subfolders fs₀ = .error (m, e, fs')) :
    afterRoot o pn fs₀ = ⟨false, some (m, e), fs', []⟩ := by
  unfold afterRoot
  rw [h]

theorem afterRoot_sub_ok {o : Oracle} {pn : String} {fs₀ fs₁ : FS}
    (h : mkdirSubfolders o pn subfolders fs₀ = .ok fs₁) :
    afterRoot o pn fs₀
      = ⟨true, none, (filePhase o pn fs₁).1, (filePhase o pn fs₁).2⟩ := by
  unfold afterRoot
  rw [h]

/-- Any failing `createProject` run printed nothing and wrote no file: only
directory creations can have happened before the abort. -/
theorem createProject_err_inv (o : Oracle) (fs : FS) (pn : String)
    (h : (createProject o fs pn).err.isSome = true) :
    (createProject o fs pn).ok = false ∧ (createProject o fs pn).logs = []
      ∧ (createProject o fs pn).fs.files = fs.files := by
  cases hm : mkdirFs o fs [pn] with
  | error e =>
    rw [createProject_root_err hm]
    exact ⟨rfl, rfl, rfl⟩
  | ok fs₀ =>
    rw [createProject_root_ok hm] at h ⊢
    cases hs : mkdirSubfolders o pn subfolders fs₀ with
    | error t =>
      obtain ⟨m, e, fs'⟩ := t
      rw [afterRoot_sub_err hs]
      refine ⟨rfl, rfl, ?_⟩
      show fs'.files = fs.files
      rw [mkdirSubfolders_err_inv hs, (mkdirFs_ok_inv hm).1]
    | ok fs₁ =>
      rw [afterRoot_sub_ok hs] at h
      simp at h

theorem validateArgs_single_ok {name : String} (h1 : name ≠ "--help")
    (h2 : matchesNamePattern name = true) : validateArgs [name] = .ok name := by
  show (if name = "--help" then ArgCheck.helpExit
    else if isInvalidProjectName name = true then ArgCheck.errInvalidName
    else ArgCheck.ok name) = ArgCheck.ok name
  rw [if_neg h1]
  have hinv : isInvalidProjectName name = false := by
    unfold isInvalidProjectName
    rw [h2]
    rfl
  rw [hinv]
  simp

theorem validateArgs_single_invalid {name : String} (h1 : name ≠ "--help")
    (h2 : matchesNamePattern name = false) :
    validateArgs [name] = .errInvalidName := by
  show (if name = "--help" then ArgCheck.helpExit
    else if isInvalidProjectName name = true then ArgCheck.errInvalidName
    else ArgCheck.ok name) = ArgCheck.errInvalidName
  rw [if_neg h1]
  have hinv : isInvalidProjectName name = true := by
    unfold isInvalidProjectName
    rw [h2]
    rfl
  rw [hinv]
  simp

/-- The two lines `main` prints after a successful `createProject`. -/
def successLogs : List String :=
  ["Project created successfully!",
    "Please 'cd' into your new project and run 'go mod init <insert-your-init-path> && go mod tidy'"]

theorem mainRun_success {o : Oracle} {fs : FS} {name : String}
    (hva : validateArgs [name] = .ok name)
    (he : (createProject o fs name).err = none)
    (hok : (createProject o fs name).ok = true) :
    mainRun o fs [name]
      = (0, (createProject o fs name).fs, (createProject o fs name).logs ++ successLogs) := by
  unfold mainRun
  rw [hva]
  simp only [he, hok, successLogs]
  simp

/-- The text of `tmplV140Piece2` before its trailing `<h1>` tag. -/
def tmplV140Piece2a : String :=
  "\n      </a>\n\n      <ul>\n        \x7b\x7b if .User \x7d\x7d\n        <li>\n          <a href=\"/dashboard\" title=\"Dashboard\">Dashboard</a>\n        </li>\n        <li>\n          <button hx-post=\"/auth/sign-out\" hx-target=\"body\">Sign Out</button>\n        </li>\n        \x7b\x7b end \x7d\x7d\n\n        \x7b\x7b if not .User \x7d\x7d\n        <li>\n          <button hx-get=\"/auth/sign-in\" hx-target=\"body\">Sign In</button>\n        </li>\n        \x7b\x7b end \x7d\x7d\n      </ul>\n    </nav>\n  </header>\n\n  <main>\n    <section>\n      "

/-- The text of `tmplV140Piece3` after its leading `</h1>` tag. -/
def tmplV140Piece3a : String :=
  "\n    </section>\n  </main>\n\n  <script type=\"text/javascript\">\n    document.addEventListener(\"DOMContentLoaded\", (event) => \x7b\n      document.body.addEventListener('htmx:beforeSwap', function (evt) \x7b\n        if (evt.detail.xhr.status === 422 || evt.detail.xhr.status === 500) \x7b\n          console.log(\"setting status to paint\");\n          // allow 422 responses to swap as we are using this as a signal that\n          // a form was submitted with bad data and want to rerender with the\n          // errors\n          //\n          // set isError to false to avoid error logging in console\n          evt.detail.shouldSwap = true;\n          evt.detail.isError = false;\n        \x7d\n      \x7d);\n    \x7d);\n  </script>\n</body>\n\n</html>\n\x7b\x7b end \x7d\x7d\n\n\x7b\x7b block \"sign-up-form\" . \x7d\x7d\n<div id=\"sign-up-form\">\n  <form hx-post=\"/auth/sign-up\" hx-target=\"body\">\n    <a href=\"/\" title=\"Napp Home\">\n      "

theorem tmplV140Piece2_split : tmplV140Piece2 = tmplV140Piece2a ++ "<h1>" := by decide

theorem tmplV140Piece3_split : tmplV140Piece3 = "</h1>" ++ tmplV140Piece3a := by decide

/-- A format string with no `%s` verb is printed unchanged whatever the
arguments. -/
theorem fillP_no_verbs : ∀ p : List Char, hasPS p = false →
    ∀ args, fillP p args = p := by
  intro p
  induction p with
  | nil => intro _ args; rfl
  | cons c p ih =>
    intro hp args
    cases p with
    | nil => rfl
    | cons d p' =>
      have hsplit : ((c = '%' && d = 's') || hasPS (d :: p')) = false := hp
      have h1 : (c = '%' && d = 's') = false := by
        cases hb : (c = '%' && d = 's') with
        | false => rfl
        | true => rw [hb] at hsplit; simp at hsplit
      have h2 : hasPS (d :: p') = false := by
        cases hb : hasPS (d :: p') with
        | false => rfl
        | true => rw [hb] at hsplit; simp at hsplit
      show fillP (c :: d :: p') args = c :: d :: p'
      have : fillP (c :: d :: p') args = c :: fillP (d :: p') args := by
        simp [fillP, h1]
      rw [this, ih h2 args]

theorem emptyFS_fresh (name : String) : emptyFS.fresh name := by
  constructor
  · intro p hp
    exact absurd hp (List.not_mem_nil p)
  · intro e he
    exact absurd he (List.not_mem_nil e)

/-- The `.env` body is exactly the derived `_DB_PATH` line of the claim. -/
theorem dotenvContent_eq {name : String} (hv : matchesNamePattern name = true) :
    dotenvContent name = upperSnakeCase name ++ "_DB_PATH=\"" ++ name ++ ".db\"" := by
  apply string_data_eq
  unfold dotenvContent fillPercentS
  rw [goToLower_fixes_valid hv]
  show fillP ("%s_DB_PATH=\"%s\"".data) [upperSnakeCase name, name ++ ".db"] = _
  have hd : ("%s_DB_PATH=\"%s\"".data)
      = '%' :: 's' :: ("_DB_PATH=\"".data ++ '%' :: 's' :: "\"".data) := by rfl
  rw [hd, fillP_verb]
  rw [fillP_piece ("\"".data) (name ++ ".db") [] ("_DB_PATH=\"".data) (by rfl)]
  have hq : fillP ("\"".data) [] = "\"".data := rfl
  rw [hq]
  simp [String.data_append, List.append_assoc]

/-! ## The claims -/

/-- C1: for every fresh valid project name, `createProject` (with no injected
I/O failure) succeeds and produces exactly the root directory, the `cmd`,
`templates` and `static` subdirectories, the seven files `cmd/main.go`,
`templates/index.html`, `static/htmx.min.js`, `static/styles.css`,
`.gitignore`, `.env` and the empty lowercased `<name>.db` file, printing no
error; and the `.env` body is the line
`upperSnakeCase(name)_DB_PATH="<name>.db"`. -/
theorem C1_scaffold_layout (name : String) (fs : FS)
    (hv : matchesNamePattern name = true) (hf : fs.fresh name) :
    createProject okOracle fs name
      = ⟨true, none,
          { dirs := [name, "static"] :: [name, "templates"] :: [name, "cmd"]
              :: [name] :: fs.dirs,
            files := ([name, name ++ ".db"], "")
              :: ([name, ".env"], dotenvContent name)
              :: ([name, ".gitignore"], ignoreContent)
              :: ([name, "static", "styles.css"], cssContent)
              :: ([name, "static", "htmx.min.js"], htmxContent)
              :: ([name, "templates", "index.html"], indexHTMLContent)
              :: ([name, "cmd", "main.go"], mainGoContent)
              :: fs.files },
          []⟩
      ∧ dotenvContent name = upperSnakeCase name ++ "_DB_PATH=\"" ++ name ++ ".db\"" := by
  constructor
  · rw [createProject_success_shape hf (fun _ => rfl),
      filePhase_char okOracle fs name hf]
    rw [goToLower_fixes_valid hv]
    simp [wrote, wroteDb, stepLogs, dbStepLogs, okOracle, dirsFS]
  · exact dotenvContent_eq hv

theorem C1_scaffold_layout_witness :
    (createProject okOracle emptyFS "my-app").err = none
      ∧ dotenvContent "my-app" = "MY_APP_DB_PATH=\"my-app.db\"" := by
  have h := C1_scaffold_layout "my-app" emptyFS (by decide) (emptyFS_fresh "my-app")
  constructor
  · rw [h.1]
  · rw [h.2]
    decide

/-- C2: argument validation succeeds exactly on one-element lists whose
element matches `^[a-z0-9-]+$` (with `--help` diverted first); the empty
list, longer lists and invalid single names give the three distinct errors,
and `main` prints the error and exits 1 in each failure case, touching
nothing. -/
theorem C2_validateArgs_contract :
    validateArgs [] = .errNoArguments
    ∧ (∀ (a b : String) (rest : List String),
        validateArgs (a :: b :: rest) = .errTooManyArguments)
    ∧ (∀ name : String, name ≠ "--help" →
        (validateArgs [name] = .ok name ↔ matchesNamePattern name = true))
    ∧ (∀ name : String, (name = "" ∨ ∃ c ∈ name.data, isNameChar c = false) →
        validateArgs [name] = .errInvalidName)
    ∧ (∀ (o : Oracle) (fs : FS),
        mainRun o fs [] = (1, fs, ["no arguments provided"]))
    ∧ (∀ (o : Oracle) (fs : FS) (a b : String) (rest : List String),
        mainRun o fs (a :: b :: rest) = (1, fs, ["too many arguments provided"]))
    ∧ (∀ (o : Oracle) (fs : FS) (name : String),
        validateArgs [name] = .errInvalidName →
        mainRun o fs [name] = (1, fs, ["invalid project name"])) := by
  refine ⟨rfl, fun a b rest => rfl, ?_, ?_, fun o fs => rfl, fun o fs a b rest => rfl, ?_⟩
  · intro name hne
    constructor
    · intro hok
      cases hm : matchesNamePattern name with
      | true => rfl
      | false =>
        rw [validateArgs_single_invalid hne hm] at hok
        exact absurd hok (by simp)
    · intro hm
      exact validateArgs_single_ok hne hm
  · intro name hbad
    have hne : name ≠ "--help" := by
      rcases hbad with h | ⟨c, hc, hbadc⟩
      · rw [h]; decide
      · intro he
        rw [he] at hc
        have : isNameChar c = true := by
          fin_cases hc <;> decide
        rw [this] at hbadc
        exact absurd hbadc (by simp)
    have hm : matchesNamePattern name = false := by
      rcases hbad with h | ⟨c, hc, hbadc⟩
      · rw [h]; decide
      · unfold matchesNamePattern
        have : name.data.all isNameChar = false := by
          apply List.all_eq_false.mpr
          exact ⟨c, hc, by simp [hbadc]⟩
        rw [this]
        simp
    exact validateArgs_single_invalid hne hm
  · intro o fs name h
    unfold mainRun
    rw [h]

/-- C3 (the code bug): the server entry point written into `cmd/` is the
fixed `mainGoContent` for every project name; it hard-codes the variable
`AUTH_DIARIES_DB_PATH` and mentions neither the derived `_DB_PATH` name (for
`my-app`, `MY_APP_DB_PATH` — the very name the same run writes into `.env`)
nor any `_COOKIE_STORE_SECRET` variable, contradicting the substitution the
spec describes (and which `createGoMainFile` of the embedded-template
variant performs). -/
theorem C3_mainGo_hardcoded_env :
    containsSubstr mainGoContent "AUTH_DIARIES_DB_PATH" = true
    ∧ upperSnakeCase "my-app" ++ "_DB_PATH" = "MY_APP_DB_PATH"
    ∧ containsSubstr mainGoContent "MY_APP_DB_PATH" = false
    ∧ containsSubstr mainGoContent "_COOKIE_STORE_SECRET" = false
    ∧ (createProject okOracle emptyFS "my-app").fs.files.lookup
        ["my-app", "cmd", "main.go"] = some mainGoContent
    ∧ dotenvContent "my-app" = "MY_APP_DB_PATH=\"my-app.db\"" := by
  refine ⟨rfl, by decide, rfl, rfl, rfl, by decide⟩

/-- C4 counterexample: the `.env` written for the concrete name `my-app` is
exactly the one `_DB_PATH` line; it contains no `_COOKIE_STORE_SECRET`
variable and no placeholder secret, so the claim fails as stated. -/
theorem C4_dotenv_no_cookie_cex :
    (createProject okOracle emptyFS "my-app").fs.files.lookup ["my-app", ".env"]
      = some "MY_APP_DB_PATH=\"my-app.db\""
    ∧ containsSubstr "MY_APP_DB_PATH=\"my-app.db\"" "_COOKIE_STORE_SECRET" = false
    ∧ containsSubstr "MY_APP_DB_PATH=\"my-app.db\"" "COOKIE" = false
    ∧ containsSubstr "MY_APP_DB_PATH=\"my-app.db\"" "secret" = false := by
  refine ⟨?_, rfl, rfl, rfl⟩
  show ((createProject okOracle emptyFS "my-app").fs.files.lookup ["my-app", ".env"]) = _
  rfl

/-- C4 amended: the `.env` file the current code writes holds exactly the
derived `_DB_PATH` variable name and the lowercased database filename — and
nothing else (in particular no cookie-secret variable and no placeholder
secret value, which only the embedded-template variant wrote). -/
theorem C4_dotenv_db_line (name : String) (fs : FS)
    (hv : matchesNamePattern name = true) (hf : fs.fresh name) :
    ([name, ".env"], dotenvContent name) ∈ (createProject okOracle fs name).fs.files
    ∧ dotenvContent name = upperSnakeCase name ++ "_DB_PATH=\"" ++ name ++ ".db\"" := by
  constructor
  · rw [createProject_success_shape hf (fun _ => rfl),
      filePhase_char okOracle fs name hf]
    simp [wrote, wroteDb, okOracle]
  · exact dotenvContent_eq hv

theorem C4_dotenv_db_line_witness :
    ([("my-app" : String), ".env"], dotenvContent "my-app")
        ∈ (createProject okOracle emptyFS "my-app").fs.files
    ∧ dotenvContent "my-app"
        = upperSnakeCase "my-app" ++ "_DB_PATH=\"" ++ "my-app" ++ ".db\"" :=
  C4_dotenv_db_line "my-app" emptyFS (by decide) (emptyFS_fresh "my-app")

/-- C5 counterexample: for the concrete name `my-app` the current code
writes `templates/index.html` verbatim — the fixed embedded text, which has
no `%s` placeholder and nowhere contains `titleCase("my-app") = "My App"` —
so no titleCase substitution reaches any page-title or heading position. -/
theorem C5_current_html_unsubstituted_cex :
    (createProject okOracle emptyFS "my-app").fs.files.lookup
        ["my-app", "templates", "index.html"] = some indexHTMLContent
    ∧ titleCase "my-app" = "My App"
    ∧ containsSubstr indexHTMLContent "My App" = false
    ∧ containsSubstr indexHTMLContent "%s" = false := by
  exact ⟨rfl, by decide, rfl, rfl⟩

/-- C5 amended: `titleCase` capitalizes each hyphen-delimited segment and
joins with spaces (refinement against the spec's own description); the
embedded-template variant fills the four `%s` placeholders of its index
template left-to-right with `titleCase(name)`, the second of which is the
`<h1>` heading; the current `napp.go` writes its template with zero
placeholders (see the counterexample). -/
theorem C5_titleCase_and_templates (name : String)
    (hv : matchesNamePattern name = true) :
    titleCase name = titleCaseSpec name
    ∧ createHtmlFileContentV140 name
        = tmplV140Piece1 ++ (titleCase name ++ (tmplV140Piece2 ++ (titleCase name
          ++ (tmplV140Piece3 ++ (titleCase name ++ (tmplV140Piece4
          ++ (titleCase name ++ tmplV140Piece5)))))))
    ∧ (∃ pre post : String, createHtmlFileContentV140 name
        = pre ++ ("<h1>" ++ titleCase name ++ "</h1>") ++ post) := by
  have hdecomp : indexTemplateV140.data
      = tmplV140Piece1.data ++ ('%' :: 's' :: (tmplV140Piece2.data
        ++ ('%' :: 's' :: (tmplV140Piece3.data ++ ('%' :: 's'
        :: (tmplV140Piece4.data ++ ('%' :: 's' :: tmplV140Piece5.data))))))) := by
    have hps : ("%s" : String).data = ['%', 's'] := rfl
    simp [indexTemplateV140, String.data_append, List.append_assoc, hps]
  have hc2 : createHtmlFileContentV140 name
      = tmplV140Piece1 ++ (titleCase name ++ (tmplV140Piece2 ++ (titleCase name
        ++ (tmplV140Piece3 ++ (titleCase name ++ (tmplV140Piece4
        ++ (titleCase name ++ tmplV140Piece5))))))) := by
    apply string_data_eq
    show fillP indexTemplateV140.data
        [titleCase name, titleCase name, titleCase name, titleCase name] = _
    rw [hdecomp]
    rw [fillP_piece _ (titleCase name) [titleCase name, titleCase name, titleCase name]
      tmplV140Piece1.data (by rfl)]
    rw [fillP_piece _ (titleCase name) [titleCase name, titleCase name]
      tmplV140Piece2.data (by rfl)]
    rw [fillP_piece _ (titleCase name) [titleCase name]
      tmplV140Piece3.data (by rfl)]
    rw [fillP_piece _ (titleCase name) [] tmplV140Piece4.data (by rfl)]
    rw [fillP_no_verbs tmplV140Piece5.data (by rfl) []]
    simp [String.data_append]
  refine ⟨titleCase_eq_spec hv, hc2, ?_⟩
  refine ⟨tmplV140Piece1 ++ (titleCase name ++ tmplV140Piece2a),
    tmplV140Piece3a ++ (titleCase name ++ (tmplV140Piece4
      ++ (titleCase name ++ tmplV140Piece5))), ?_⟩
  rw [hc2, tmplV140Piece2_split, tmplV140Piece3_split]
  apply string_data_eq
  simp [String.data_append, List.append_assoc]

theorem C5_titleCase_and_templates_witness :
    titleCase "my-app" = titleCaseSpec "my-app"
    ∧ (∃ pre post : String, createHtmlFileContentV140 "my-app"
        = pre ++ ("<h1>" ++ titleCase "my-app" ++ "</h1>") ++ post) :=
  ⟨(C5_titleCase_and_templates "my-app" (by decide)).1,
    (C5_titleCase_and_templates "my-app" (by decide)).2.2⟩

/-- C6: a first run on a fresh name succeeds; a second run with the same
name fails at the root `os.Mkdir` with the directory-already-exists error,
prints nothing from `createProject`, and returns the filesystem of the first
run untouched. -/
theorem C6_second_run_unchanged (o₁ o₂ : Oracle) (fs : FS) (name : String)
    (hf : fs.fresh name) (hm : ∀ p, o₁.failMkdir p = false) :
    (createProject o₁ fs name).ok = true
    ∧ createProject o₂ (createProject o₁ fs name).fs name
        = ⟨false, some ("error creating project directory: ", .alreadyExists),
            (createProject o₁ fs name).fs, []⟩ := by
  have h1 := @createProject_success_shape o₁ fs name hf hm
  constructor
  · rw [h1]
  · have hdirs : (createProject o₁ fs name).fs.dirs = (dirsFS fs name).dirs := by
      rw [h1, filePhase_char o₁ fs name hf]
    have hpres : (createProject o₁ fs name).fs.present [name] = true := by
      simp only [FS.present, FS.hasDir, Bool.or_eq_true, decide_eq_true_eq]
      left
      rw [hdirs]
      simp [dirsFS]
    exact createProject_root_err (mkdirFs_exists hpres)

theorem C6_second_run_unchanged_witness :
    (createProject okOracle emptyFS "my-app").ok = true
    ∧ createProject okOracle (createProject okOracle emptyFS "my-app").fs "my-app"
        = ⟨false, some ("error creating project directory: ", .alreadyExists),
            (createProject okOracle emptyFS "my-app").fs, []⟩ :=
  C6_second_run_unchanged okOracle okOracle emptyFS "my-app"
    (emptyFS_fresh "my-app") (fun _ => rfl)

/-- C7: any directory-creation failure aborts `createProject` with an error
before any file write (nothing printed, the files of the filesystem exactly
as before); once the four directories exist, every one of the seven file
steps runs whatever individual `Create`/`WriteString` failures the oracle
injects — each failure is only printed (`stepLogs`/`dbStepLogs`) and the run
still ends `(true, nil)` with no cleanup. -/
theorem C7_dir_failures_abort_file_failures_continue
    (o : Oracle) (fs : FS) (name : String) :
    ((createProject o fs name).err.isSome = true →
      (createProject o fs name).ok = false
      ∧ (createProject o fs name).logs = []
      ∧ (createProject o fs name).fs.files = fs.files)
    ∧ (matchesNamePattern name = true → fs.fresh name →
      (∀ p, o.failMkdir p = false) →
      (createProject o fs name).ok = true
      ∧ (createProject o fs name).err = none
      ∧ (createProject o fs name).logs
        = stepLogs o [name, "cmd", "main.go"] "error creating main.go file: "
            "error writing main.go content to file: "
          ++ stepLogs o [name, "templates", "index.html"]
            "error creating index.html file: "
            "error writing index.html content to file: "
          ++ stepLogs o [name, "static", "htmx.min.js"]
            "error creating styles.css file: "
            "error writing styles.css content to file: "
          ++ stepLogs o [name, "static", "styles.css"]
            "error creating styles.css file: "
            "error writing styles.css content to file: "
          ++ stepLogs o [name, ".gitignore"] "error creating .gitignore file: "
            "error writing .gitignore content to file: "
          ++ stepLogs o [name, ".env"] "error creating .env file: "
            "error writing .env content to file: "
          ++ dbStepLogs o [name, name ++ ".db"]
      ∧ (createProject o fs name).fs.files
        = wroteDb o [name, name ++ ".db"]
          ++ (wrote o [name, ".env"] (dotenvContent name)
          ++ (wrote o [name, ".gitignore"] ignoreContent
          ++ (wrote o [name, "static", "styles.css"] cssContent
          ++ (wrote o [name, "static", "htmx.min.js"] htmxContent
          ++ (wrote o [name, "templates", "index.html"] indexHTMLContent
          ++ (wrote o [name, "cmd", "main.go"] mainGoContent
          ++ fs.files))))))) := by
  constructor
  · exact createProject_err_inv o fs name
  · intro hv hf hm
    have h1 := @createProject_success_shape o fs name hf hm
    have h2 := filePhase_char o fs name hf
    rw [goToLower_fixes_valid hv] at h2
    rw [h1, h2]
    exact ⟨rfl, rfl, rfl, rfl⟩

/-- C8: a lone `--help` argument short-circuits `validateArgs` (whose
`--help` check precedes the pattern check — the pattern would in fact accept
the string `--help`), and `main` then prints the usage line and exits 0
leaving the filesystem untouched. -/
theorem C8_help_short_circuit :
    validateArgs ["--help"] = .helpExit
    ∧ matchesNamePattern "--help" = true
    ∧ (∀ (o : Oracle) (fs : FS), mainRun o fs ["--help"] = (0, fs, [helpText])) := by
  exact ⟨rfl, by decide, fun o fs => rfl⟩

/-- C9: on valid names, `upperSnakeCase` turns every hyphen into an
underscore and uppercases every remaining character, and it is idempotent. -/
theorem C9_upperSnakeCase_spec_idem (name : String)
    (hv : matchesNamePattern name = true) :
    (upperSnakeCase name).data
        = name.data.map (fun c => if c = '-' then '_' else c.toUpper)
    ∧ upperSnakeCase (upperSnakeCase name) = upperSnakeCase name :=
  ⟨upperSnakeCase_spec_form hv, upperSnakeCase_idem hv⟩

theorem C9_upperSnakeCase_spec_idem_witness :
    upperSnakeCase (upperSnakeCase "my-app") = upperSnakeCase "my-app"
    ∧ upperSnakeCase "my-app" = "MY_APP" :=
  ⟨(C9_upperSnakeCase_spec_idem "my-app" (by decide)).2, by decide⟩

/-- C10: whenever the four directory creations succeed, `createProject`
returns `(true, nil)` no matter which file writes fail, and `main` prints
the success and next-steps lines and exits 0. -/
theorem C10_success_reported_despite_write_failures
    (o : Oracle) (fs : FS) (name : String)
    (hf : fs.fresh name) (hm : ∀ p, o.failMkdir p = false)
    (hhelp : name ≠ "--help") (hv : matchesNamePattern name = true) :
    (createProject o fs name).ok = true
    ∧ (createProject o fs name).err = none
    ∧ (mainRun o fs [name]).1 = 0
    ∧ "Project created successfully!" ∈ (mainRun o fs [name]).2.2 := by
  have h1 := @createProject_success_shape o fs name hf hm
  have hmr := mainRun_success (validateArgs_single_ok hhelp hv)
    (by rw [h1]) (by rw [h1])
  refine ⟨by rw [h1], by rw [h1], by rw [hmr], ?_⟩
  rw [hmr]
  exact List.mem_append_right _ (by simp [successLogs])

theorem C10_success_reported_despite_write_failures_witness :
    (createProject fileFailOracle emptyFS "my-app").ok = true
    ∧ "Project created successfully!"
        ∈ (mainRun fileFailOracle emptyFS ["my-app"]).2.2 := by
  have h := C10_success_reported_despite_write_failures fileFailOracle emptyFS
    "my-app" (emptyFS_fresh "my-app") (fun _ => rfl) (by decide) (by decide)
  exact ⟨h.1, h.2.2.2⟩
